import Mathlib

/-!
Shallow embedding of the LIS3MDL magnetometer driver (`src/lib.rs`).

The driver talks to an I2C bus through three capability methods
(`write`, `read`, `write_read` of the embedded-hal blocking traits).
We model the bus as an `I2CModel σ ε`: a deterministic responder over an
abstract bus state `σ` with an abstract transport-error type `ε`.  Each
driver operation additionally returns the list of bus transactions it
issued (`Trans`), so that frame conditions ("writes no other register",
"issues no burst read", "every transaction uses the resolved address")
are expressible.  Bytes are `Nat` values; the `i16` decode is made
explicit through `toI16`.
-/

namespace LIS3MDLModel

/-- Modelled from the spec: register table of the chip (the `registers`
module referenced by `lib.rs` is not under `src/`).  Identity register. -/
def registers.WHO_AM_I : Nat := 0x0f

/-- Modelled from the spec: control register 1 (XY axis mode and output
data rate). -/
def registers.CTRL_REG1 : Nat := 0x20

/-- Modelled from the spec: control register 2 (full scale). -/
def registers.CTRL_REG2 : Nat := 0x21

/-- Modelled from the spec: control register 3 (operating mode). -/
def registers.CTRL_REG3 : Nat := 0x22

/-- Modelled from the spec: control register 4 (Z axis mode). -/
def registers.CTRL_REG4 : Nat := 0x23

/-- Modelled from the spec: status register. -/
def registers.STATUS_REG : Nat := 0x27

/-- Modelled from the spec: X-axis low output register, start of the
6-byte burst (X low, X high, Y low, Y high, Z low, Z high). -/
def registers.OUT_X_L : Nat := 0x28

/-- `LIS3MDL_SA1_HIGH_ADDRESS` from the source. -/
def LIS3MDL_SA1_HIGH_ADDRESS : Nat := 0b0011110

/-- `LIS3MDL_SA1_LOW_ADDRESS` from the source. -/
def LIS3MDL_SA1_LOW_ADDRESS : Nat := 0b0011100

/-- `LIS3MDL_WHO_ID` from the source. -/
def LIS3MDL_WHO_ID : Nat := 0x3d

/-- The `OperatingMode` enum from the source. -/
inductive OperatingMode
  | ContinuousConversion
  | SingleConversion
  | PowerDown
deriving DecidableEq, Fintype

/-- `OperatingMode::to_bitcode` from the source. -/
def OperatingMode.to_bitcode : OperatingMode → Nat
  | .ContinuousConversion => 0
  | .SingleConversion => 1
  | .PowerDown => 2

/-- The `FullScale` enum from the source. -/
inductive FullScale
  | Four
  | Eight
  | Twelve
  | Sixteen
deriving DecidableEq, Fintype

/-- `FullScale::to_bitcode` from the source. -/
def FullScale.to_bitcode : FullScale → Nat
  | .Four => 0
  | .Eight => 1
  | .Twelve => 2
  | .Sixteen => 3

/-- The `AxisMode` enum from the source. -/
inductive AxisMode
  | LowPower
  | MediumPerformance
  | HighPerformance
  | UltraPerformance
deriving DecidableEq, Fintype

/-- `AxisMode::to_bitcode` from the source. -/
def AxisMode.to_bitcode : AxisMode → Nat
  | .LowPower => 0
  | .MediumPerformance => 1
  | .HighPerformance => 2
  | .UltraPerformance => 3

/-- The `OutputDataRate` enum from the source. -/
inductive OutputDataRate
  | Fast
  | MilliHz625
  | MilliHz1250
  | MilliHz2500
  | Hz5
  | Hz10
  | Hz20
  | Hz40
  | Hz80
deriving DecidableEq, Fintype

/-- `OutputDataRate::to_bitcode` from the source. -/
def OutputDataRate.to_bitcode : OutputDataRate → Nat
  | .Fast => 1
  | .MilliHz625 => 0
  | .MilliHz1250 => 0b10
  | .MilliHz2500 => 0b100
  | .Hz5 => 0b110
  | .Hz10 => 0b1000
  | .Hz20 => 0b1010
  | .Hz40 => 0b1100
  | .Hz80 => 0b1110

/-- A bus transaction as issued by the driver: either a plain write of a
byte sequence to a 7-bit device address, or a write-then-read (the bytes
written followed by the number of bytes read back). -/
inductive Trans
  | write (addr : Nat) (bytes : List Nat)
  | write_read (addr : Nat) (out : List Nat) (rdLen : Nat)
deriving DecidableEq

/-- The device address a transaction was issued to. -/
def Trans.addr : Trans → Nat
  | .write a _ => a
  | .write_read a _ _ => a

/-- Deterministic model of the I2C channel: `write s addr bytes` is the
blocking write, `write_read s addr out buf` is the combined
write-then-read where `buf` is the caller's read buffer (its initial
contents) and the returned list is the buffer's final contents. -/
structure I2CModel (σ ε : Type) where
  write : σ → Nat → List Nat → Except ε σ
  write_read : σ → Nat → List Nat → List Nat → Except ε (List Nat × σ)

/-- The `LIS3MDL<E, I>` handle from the source: resolved address plus
exclusively owned channel state. -/
structure LIS3MDL (σ : Type) where
  address : Nat
  i2c : σ
deriving DecidableEq

/-- Two's-complement reading of the low 16 bits of a natural number: the
integer denoted by the `i16` bit pattern `n % 2^16`. -/
def toI16 (n : Nat) : Int :=
  if n % 65536 < 32768 then ((n % 65536 : Nat) : Int)
  else ((n % 65536 : Nat) : Int) - 65536

/-- The axis decode `(hi as i16) << 8 | lo as i16` from
`incremental_read_measurements`: bitwise operations on `i16` act on the
two's-complement bit pattern, so the result is the signed value of the
16-bit pattern `(hi <<< 8) ||| lo`. -/
def decodePair (lo hi : Nat) : Int := toI16 ((hi <<< 8) ||| lo)

variable {σ ε : Type}

/-- `LIS3MDL::set_register`: write the two bytes `[reg, value]` to the
resolved device address. -/
def LIS3MDL.set_register (M : I2CModel σ ε) (d : LIS3MDL σ) (reg value : Nat) :
    Except ε (LIS3MDL σ × List Trans) :=
  match M.write d.i2c d.address [reg, value] with
  | .error e => .error e
  | .ok s => .ok (⟨d.address, s⟩, [Trans.write d.address [reg, value]])

/-- `LIS3MDL::read_register`: write-then-read of one byte (`resp = [0]`
is the initial read buffer; the result byte is the buffer's head). -/
def LIS3MDL.read_register (M : I2CModel σ ε) (d : LIS3MDL σ) (reg : Nat) :
    Except ε (Nat × LIS3MDL σ × List Trans) :=
  match M.write_read d.i2c d.address [reg] [0] with
  | .error e => .error e
  | .ok (resp, s) =>
      .ok (resp.headD 0, ⟨d.address, s⟩, [Trans.write_read d.address [reg] 1])

/-- `LIS3MDL::set_operating_mode`: full overwrite of CTRL_REG3. -/
def LIS3MDL.set_operating_mode (M : I2CModel σ ε) (d : LIS3MDL σ)
    (mode : OperatingMode) : Except ε (LIS3MDL σ × List Trans) :=
  d.set_register M registers.CTRL_REG3 mode.to_bitcode

/-- `LIS3MDL::power_down`: alias for
`set_operating_mode(OperatingMode::PowerDown)`. -/
def LIS3MDL.power_down (M : I2CModel σ ε) (d : LIS3MDL σ) :
    Except ε (LIS3MDL σ × List Trans) :=
  d.set_operating_mode M OperatingMode.PowerDown

/-- `LIS3MDL::set_full_scale`: full overwrite of CTRL_REG2. -/
def LIS3MDL.set_full_scale (M : I2CModel σ ε) (d : LIS3MDL σ)
    (scale : FullScale) : Except ε (LIS3MDL σ × List Trans) :=
  d.set_register M registers.CTRL_REG2 scale.to_bitcode

/-- `LIS3MDL::set_xy_mode_and_data_rate`: full overwrite of CTRL_REG1
with `(mode.to_bitcode() << 5) | (odr.to_bitcode() << 1)`. -/
def LIS3MDL.set_xy_mode_and_data_rate (M : I2CModel σ ε) (d : LIS3MDL σ)
    (mode : AxisMode) (odr : OutputDataRate) :
    Except ε (LIS3MDL σ × List Trans) :=
  d.set_register M registers.CTRL_REG1
    ((mode.to_bitcode <<< 5) ||| (odr.to_bitcode <<< 1))

/-- `LIS3MDL::set_xy_mode`: read CTRL_REG1, then write back
`cur & (0b10011111 & (mode.to_bitcode() << 5))` — literally as in the
source. -/
def LIS3MDL.set_xy_mode (M : I2CModel σ ε) (d : LIS3MDL σ) (mode : AxisMode) :
    Except ε (LIS3MDL σ × List Trans) :=
  match d.read_register M registers.CTRL_REG1 with
  | .error e => .error e
  | .ok (cur, d1, t1) =>
    match d1.set_register M registers.CTRL_REG1
        (cur &&& (0b10011111 &&& (mode.to_bitcode <<< 5))) with
    | .error e => .error e
    | .ok (d2, t2) => .ok (d2, t1 ++ t2)

/-- `LIS3MDL::set_z_mode`: full overwrite of CTRL_REG4 with
`mode.to_bitcode() << 2`. -/
def LIS3MDL.set_z_mode (M : I2CModel σ ε) (d : LIS3MDL σ) (mode : AxisMode) :
    Except ε (LIS3MDL σ × List Trans) :=
  d.set_register M registers.CTRL_REG4 (mode.to_bitcode <<< 2)

/-- `LIS3MDL::set_data_rate`: read CTRL_REG1, then write back
`cur & (0b11100001 & (odr.to_bitcode() << 1))` — literally as in the
source. -/
def LIS3MDL.set_data_rate (M : I2CModel σ ε) (d : LIS3MDL σ)
    (odr : OutputDataRate) : Except ε (LIS3MDL σ × List Trans) :=
  match d.read_register M registers.CTRL_REG1 with
  | .error e => .error e
  | .ok (cur, d1, t1) =>
    match d1.set_register M registers.CTRL_REG1
        (cur &&& (0b11100001 &&& (odr.to_bitcode <<< 1))) with
    | .error e => .error e
    | .ok (d2, t2) => .ok (d2, t1 ++ t2)

/-- `LIS3MDL::init_default`: XY high performance at 10 Hz, Z high
performance, continuous conversion. -/
def LIS3MDL.init_default (M : I2CModel σ ε) (d : LIS3MDL σ) :
    Except ε (LIS3MDL σ × List Trans) :=
  match d.set_xy_mode_and_data_rate M AxisMode.HighPerformance OutputDataRate.Hz10 with
  | .error e => .error e
  | .ok (d1, t1) =>
    match d1.set_z_mode M AxisMode.HighPerformance with
    | .error e => .error e
    | .ok (d2, t2) =>
      match d2.set_operating_mode M OperatingMode.ContinuousConversion with
      | .error e => .error e
      | .ok (d3, t3) => .ok (d3, t1 ++ t2 ++ t3)

/-- `LIS3MDL::incremental_read_measurements`: 6-byte burst write-then-read
starting at `start_reg`, decoded as three little-endian `i16` values. -/
def LIS3MDL.incremental_read_measurements (M : I2CModel σ ε) (d : LIS3MDL σ)
    (start_reg : Nat) : Except ε ((Int × Int × Int) × LIS3MDL σ × List Trans) :=
  match M.write_read d.i2c d.address [start_reg] [0, 0, 0, 0, 0, 0] with
  | .error e => .error e
  | .ok (values, s) =>
    .ok ((decodePair (values.getD 0 0) (values.getD 1 0),
          decodePair (values.getD 2 0) (values.getD 3 0),
          decodePair (values.getD 4 0) (values.getD 5 0)),
         ⟨d.address, s⟩, [Trans.write_read d.address [start_reg] 6])

/-- `LIS3MDL::read`: poll the status register; if bit 3 is clear return
`Ok(None)`, otherwise burst-read the six output bytes from OUT_X_L. -/
def LIS3MDL.read (M : I2CModel σ ε) (d : LIS3MDL σ) :
    Except ε (Option (Int × Int × Int) × LIS3MDL σ × List Trans) :=
  match d.read_register M registers.STATUS_REG with
  | .error e => .error e
  | .ok (st, d1, t1) =>
    if st &&& 0b1000 ≠ 0b1000 then .ok (none, d1, t1)
    else
      match d1.incremental_read_measurements M registers.OUT_X_L with
      | .error e => .error e
      | .ok (v, d2, t2) => .ok (some v, d2, t1 ++ t2)

/-- `test_lism3mdl_addr` from the source: probe `address` by reading the
identity register into a buffer initialised to `LIS3MDL_WHO_ID + 1` and
comparing the result byte with `LIS3MDL_WHO_ID`. -/
def test_lism3mdl_addr (M : I2CModel σ ε) (i2c : σ) (address : Nat) :
    Except ε (Bool × σ × List Trans) :=
  match M.write_read i2c address [registers.WHO_AM_I] [LIS3MDL_WHO_ID + 1] with
  | .error e => .error e
  | .ok (resp, s) =>
    .ok (resp.headD (LIS3MDL_WHO_ID + 1) == LIS3MDL_WHO_ID, s,
         [Trans.write_read address [registers.WHO_AM_I] 1])

/-- `LIS3MDL::new`: probe the high candidate address, then the low one;
bind to the first that answers with the identity byte, return `none` when
neither does, and propagate transport errors. -/
def LIS3MDL.new (M : I2CModel σ ε) (i2c : σ) :
    Except ε (Option (LIS3MDL σ) × List Trans) :=
  match test_lism3mdl_addr M i2c LIS3MDL_SA1_HIGH_ADDRESS with
  | .error e => .error e
  | .ok (true, s1, t1) => .ok (some ⟨LIS3MDL_SA1_HIGH_ADDRESS, s1⟩, t1)
  | .ok (false, s1, t1) =>
    match test_lism3mdl_addr M s1 LIS3MDL_SA1_LOW_ADDRESS with
    | .error e => .error e
    | .ok (true, s2, t2) => .ok (some ⟨LIS3MDL_SA1_LOW_ADDRESS, s2⟩, t1 ++ t2)
    | .ok (false, _, t2) => .ok (none, t1 ++ t2)

/-- One public driver operation, for stating lifetime invariants over
arbitrary call sequences. -/
inductive DriverOp
  | init_default
  | set_operating_mode (mode : OperatingMode)
  | power_down
  | set_full_scale (scale : FullScale)
  | set_xy_mode_and_data_rate (mode : AxisMode) (odr : OutputDataRate)
  | set_xy_mode (mode : AxisMode)
  | set_z_mode (mode : AxisMode)
  | set_data_rate (odr : OutputDataRate)
  | set_register (reg value : Nat)
  | read_register (reg : Nat)
  | read

/-- Run one driver operation on a handle, keeping the evolved handle and
the transactions issued (the operation's return value is dropped). -/
def stepOp (M : I2CModel σ ε) : DriverOp → LIS3MDL σ →
    Except ε (LIS3MDL σ × List Trans)
  | .init_default, d => d.init_default M
  | .set_operating_mode m, d => d.set_operating_mode M m
  | .power_down, d => d.power_down M
  | .set_full_scale f, d => d.set_full_scale M f
  | .set_xy_mode_and_data_rate m r, d => d.set_xy_mode_and_data_rate M m r
  | .set_xy_mode m, d => d.set_xy_mode M m
  | .set_z_mode m, d => d.set_z_mode M m
  | .set_data_rate r, d => d.set_data_rate M r
  | .set_register reg v, d => d.set_register M reg v
  | .read_register reg, d =>
      (d.read_register M reg).map fun p => (p.2.1, p.2.2)
  | .read, d => (d.read M).map fun p => (p.2.1, p.2.2)

/-- Run a sequence of driver operations, concatenating the transaction
logs. -/
def runOps (M : I2CModel σ ε) : List DriverOp → LIS3MDL σ →
    Except ε (LIS3MDL σ × List Trans)
  | [], d => .ok (d, [])
  | op :: ops, d =>
    match stepOp M op d with
    | .error e => .error e
    | .ok (d1, t1) =>
      match runOps M ops d1 with
      | .error e => .error e
      | .ok (d2, t2) => .ok (d2, t1 ++ t2)

/-! ## Arithmetic bridges -/

/-- A shifted value or-ed with a small value is their sum: the two bit
ranges are disjoint. -/
theorem shiftLeft_lor_eq_add {k m y : Nat} (h : y < 2 ^ k) :
    (m <<< k) ||| y = 2 ^ k * m + y := by
  apply Nat.eq_of_testBit_eq
  intro j
  rw [Nat.testBit_mul_pow_two_add m h j, Nat.testBit_or, Nat.testBit_shiftLeft]
  by_cases hj : j < k
  · simp [hj, Nat.not_le.mpr hj]
  · have hk : k ≤ j := Nat.le_of_not_lt hj
    have hy : y < 2 ^ j := lt_of_lt_of_le h (Nat.pow_le_pow_right (by norm_num) hk)
    simp [hj, hk, Nat.testBit_lt_two_pow hy]

/-- The faithful `i16` decode agrees with the little-endian reading
`lo + 256 * hi` whenever the low byte is an actual byte. -/
theorem decodePair_eq (lo hi : Nat) (h : lo < 256) :
    decodePair lo hi = toI16 (lo + 256 * hi) := by
  unfold decodePair
  rw [shiftLeft_lor_eq_add (show lo < 2 ^ 8 from h)]
  norm_num [Nat.add_comm]

/-! ## Simulated buses used as concrete witnesses -/

/-- Simulated channel: every write succeeds, and a write-then-read of
CTRL_REG1 answers the byte `0b01000100` (a state with both an axis-mode
bit and an output-data-rate bit set). -/
def busReg44 : I2CModel Unit Unit :=
  ⟨fun _ _ _ => .ok (),
   fun _ _ out _ =>
     if out = [registers.CTRL_REG1] then .ok ([0b01000100], ()) else .error ()⟩

/-! ## Claim theorems -/

/-- C5: `set_xy_mode_and_data_rate(m, r)` performs a single full-overwrite
write to CTRL_REG1 of exactly the byte
`(m.to_bitcode <<< 5) ||| (r.to_bitcode <<< 1)`, and nothing else. -/
theorem set_xy_mode_and_data_rate_single_write (M : I2CModel σ ε)
    (d : LIS3MDL σ) (mode : AxisMode) (odr : OutputDataRate) :
    d.set_xy_mode_and_data_rate M mode odr =
      match M.write d.i2c d.address
          [registers.CTRL_REG1, (mode.to_bitcode <<< 5) ||| (odr.to_bitcode <<< 1)] with
      | .error e => .error e
      | .ok s => .ok (⟨d.address, s⟩,
          [Trans.write d.address
            [registers.CTRL_REG1,
             (mode.to_bitcode <<< 5) ||| (odr.to_bitcode <<< 1)]]) := rfl

/-- C7: `power_down` is exactly `set_operating_mode(PowerDown)`: one write
transaction, to CTRL_REG3, with the PowerDown code `0b10` as the value
byte, and no other transaction. -/
theorem power_down_single_write (M : I2CModel σ ε) (d : LIS3MDL σ) :
    d.power_down M = d.set_operating_mode M OperatingMode.PowerDown ∧
    d.power_down M =
      match M.write d.i2c d.address [registers.CTRL_REG3, 0b10] with
      | .error e => .error e
      | .ok s => .ok (⟨d.address, s⟩,
          [Trans.write d.address [registers.CTRL_REG3, 0b10]]) :=
  ⟨rfl, rfl⟩

/-- C10: every configuration encoding is injective and fits its field:
2-bit codes are at most 3, data-rate codes at most `0b1110`; in the byte
written by `set_xy_mode_and_data_rate` the mode field (bits 5-6) and the
data-rate field (bits 1-4) are disjoint, bits 0 and 7 are zero, and the
byte determines both arguments. -/
theorem bitcode_fields_disjoint_injective :
    (∀ a b : OperatingMode, a.to_bitcode = b.to_bitcode → a = b) ∧
    (∀ a b : FullScale, a.to_bitcode = b.to_bitcode → a = b) ∧
    (∀ a b : AxisMode, a.to_bitcode = b.to_bitcode → a = b) ∧
    (∀ a b : OutputDataRate, a.to_bitcode = b.to_bitcode → a = b) ∧
    (∀ a : OperatingMode, a.to_bitcode ≤ 3) ∧
    (∀ a : FullScale, a.to_bitcode ≤ 3) ∧
    (∀ a : AxisMode, a.to_bitcode ≤ 3) ∧
    (∀ a : OutputDataRate, a.to_bitcode ≤ 0b1110) ∧
    (∀ (m : AxisMode) (r : OutputDataRate),
      (m.to_bitcode <<< 5) &&& (r.to_bitcode <<< 1) = 0) ∧
    (∀ (m : AxisMode) (r : OutputDataRate),
      ((m.to_bitcode <<< 5) ||| (r.to_bitcode <<< 1)) &&& 0b10000001 = 0) ∧
    (∀ (m m' : AxisMode) (r r' : OutputDataRate),
      (m.to_bitcode <<< 5) ||| (r.to_bitcode <<< 1) =
        (m'.to_bitcode <<< 5) ||| (r'.to_bitcode <<< 1) → m = m' ∧ r = r') := by
  decide

/-- C1 counter-evaluation: with CTRL_REG1 currently `0b01000100`,
`set_xy_mode(HighPerformance)` and `set_data_rate(Hz80)` both write the
byte `0x00` back, while the read-modify-write described by the spec (clear
the field, or in the new code) would write a nonzero byte.  The mask is
combined with the shifted code by `&` in the source, so the written value
is always zero. -/
theorem set_xy_mode_writes_zero_at_0x44 :
    LIS3MDL.set_xy_mode busReg44 ⟨LIS3MDL_SA1_HIGH_ADDRESS, ()⟩
        AxisMode.HighPerformance =
      .ok (⟨LIS3MDL_SA1_HIGH_ADDRESS, ()⟩,
        [Trans.write_read LIS3MDL_SA1_HIGH_ADDRESS [registers.CTRL_REG1] 1,
         Trans.write LIS3MDL_SA1_HIGH_ADDRESS [registers.CTRL_REG1, 0]]) ∧
    LIS3MDL.set_data_rate busReg44 ⟨LIS3MDL_SA1_HIGH_ADDRESS, ()⟩
        OutputDataRate.Hz80 =
      .ok (⟨LIS3MDL_SA1_HIGH_ADDRESS, ()⟩,
        [Trans.write_read LIS3MDL_SA1_HIGH_ADDRESS [registers.CTRL_REG1] 1,
         Trans.write LIS3MDL_SA1_HIGH_ADDRESS [registers.CTRL_REG1, 0]]) ∧
    (0b01000100 &&& 0b10011111) |||
        (AxisMode.HighPerformance.to_bitcode <<< 5) ≠ 0 ∧
    (0b01000100 &&& 0b11100001) |||
        (OutputDataRate.Hz80.to_bitcode <<< 1) ≠ 0 :=
  ⟨rfl, rfl, by decide, by decide⟩

/-- C9: because the source combines the preservation mask and the shifted
code with `&` (whose cleared bits cover the code's whole field) and then
`&`s the current value with that, both `set_xy_mode(m)` and
`set_data_rate(r)` write the byte `0x00` to CTRL_REG1 — whatever the
argument and whatever byte `c` the register currently holds. -/
theorem set_xy_mode_set_data_rate_write_zero (M : I2CModel σ ε)
    (d : LIS3MDL σ) (m : AxisMode) (r : OutputDataRate) (c : Nat) (s1 : σ)
    (h : M.write_read d.i2c d.address [registers.CTRL_REG1] [0] = .ok ([c], s1)) :
    d.set_xy_mode M m =
      (match M.write s1 d.address [registers.CTRL_REG1, 0] with
       | .error e => .error e
       | .ok s2 => .ok ((⟨d.address, s2⟩ : LIS3MDL σ),
           [Trans.write_read d.address [registers.CTRL_REG1] 1,
            Trans.write d.address [registers.CTRL_REG1, 0]])) ∧
    d.set_data_rate M r =
      (match M.write s1 d.address [registers.CTRL_REG1, 0] with
       | .error e => .error e
       | .ok s2 => .ok ((⟨d.address, s2⟩ : LIS3MDL σ),
           [Trans.write_read d.address [registers.CTRL_REG1] 1,
            Trans.write d.address [registers.CTRL_REG1, 0]])) := by
  have hm : 0b10011111 &&& (m.to_bitcode <<< 5) = 0 := by cases m <;> decide
  have hr : 0b11100001 &&& (r.to_bitcode <<< 1) = 0 := by cases r <;> decide
  constructor
  · simp only [LIS3MDL.set_xy_mode, LIS3MDL.read_register, h, List.headD_cons,
      hm, Nat.and_zero, LIS3MDL.set_register]
    cases M.write s1 d.address [registers.CTRL_REG1, 0] <;> simp
  · simp only [LIS3MDL.set_data_rate, LIS3MDL.read_register, h, List.headD_cons,
      hr, Nat.and_zero, LIS3MDL.set_register]
    cases M.write s1 d.address [registers.CTRL_REG1, 0] <;> simp

/-- C9 witness: at a concrete simulated channel holding `0b01000100` in
CTRL_REG1, both setters write back zero. -/
theorem set_xy_mode_set_data_rate_write_zero_concrete :
    LIS3MDL.set_xy_mode busReg44 ⟨LIS3MDL_SA1_HIGH_ADDRESS, ()⟩
        AxisMode.UltraPerformance =
      .ok (⟨LIS3MDL_SA1_HIGH_ADDRESS, ()⟩,
        [Trans.write_read LIS3MDL_SA1_HIGH_ADDRESS [registers.CTRL_REG1] 1,
         Trans.write LIS3MDL_SA1_HIGH_ADDRESS [registers.CTRL_REG1, 0]]) ∧
    LIS3MDL.set_data_rate busReg44 ⟨LIS3MDL_SA1_HIGH_ADDRESS, ()⟩
        OutputDataRate.Hz20 =
      .ok (⟨LIS3MDL_SA1_HIGH_ADDRESS, ()⟩,
        [Trans.write_read LIS3MDL_SA1_HIGH_ADDRESS [registers.CTRL_REG1] 1,
         Trans.write LIS3MDL_SA1_HIGH_ADDRESS [registers.CTRL_REG1, 0]]) := by
  have h := set_xy_mode_set_data_rate_write_zero busReg44
    ⟨LIS3MDL_SA1_HIGH_ADDRESS, ()⟩ AxisMode.UltraPerformance
    OutputDataRate.Hz20 0b01000100 () rfl
  exact h

/-- Simulated channel for the ready path of `read`: the status register
answers `0b1000` (bit 3 set) and the burst from OUT_X_L answers the six
bytes `[0x01, 0x00, 0xFF, 0xFF, 0x00, 0x80]`. -/
def busReady : I2CModel Unit Unit :=
  ⟨fun _ _ _ => .ok (),
   fun _ _ out _ =>
     if out = [registers.STATUS_REG] then .ok ([0b1000], ())
     else if out = [registers.OUT_X_L] then
       .ok ([0x01, 0x00, 0xff, 0xff, 0x00, 0x80], ())
     else .error ()⟩

/-- C2: when the status byte has bit 3 set, `read` issues one 6-byte burst
write-then-read starting at OUT_X_L and returns the three axis values
decoded as little-endian signed 16-bit integers, in X, Y, Z order. -/
theorem read_ready_decodes_little_endian (M : I2CModel σ ε) (d : LIS3MDL σ)
    (st : Nat) (s1 s2 : σ) (b0 b1 b2 b3 b4 b5 : Nat)
    (hst : M.write_read d.i2c d.address [registers.STATUS_REG] [0] = .ok ([st], s1))
    (hbit : st &&& 0b1000 = 0b1000)
    (hburst : M.write_read s1 d.address [registers.OUT_X_L] [0, 0, 0, 0, 0, 0] =
      .ok ([b0, b1, b2, b3, b4, b5], s2))
    (h0 : b0 < 256) (h2 : b2 < 256) (h4 : b4 < 256) :
    d.read M = .ok (some
      (toI16 (b0 + 256 * b1), toI16 (b2 + 256 * b3), toI16 (b4 + 256 * b5)),
      ⟨d.address, s2⟩,
      [Trans.write_read d.address [registers.STATUS_REG] 1,
       Trans.write_read d.address [registers.OUT_X_L] 6]) := by
  simp only [LIS3MDL.read, LIS3MDL.read_register, hst, List.headD_cons,
    LIS3MDL.incremental_read_measurements, hburst, hbit]
  simp [decodePair_eq _ _ h0, decodePair_eq _ _ h2, decodePair_eq _ _ h4]

/-- C2 witness: at the simulated ready channel, `read` returns exactly
`(1, -1, -32768)`. -/
theorem read_ready_decodes_concrete :
    LIS3MDL.read busReady ⟨LIS3MDL_SA1_HIGH_ADDRESS, ()⟩ =
      .ok (some (1, -1, -32768), ⟨LIS3MDL_SA1_HIGH_ADDRESS, ()⟩,
        [Trans.write_read LIS3MDL_SA1_HIGH_ADDRESS [registers.STATUS_REG] 1,
         Trans.write_read LIS3MDL_SA1_HIGH_ADDRESS [registers.OUT_X_L] 6]) := by
  have h := read_ready_decodes_little_endian busReady
    ⟨LIS3MDL_SA1_HIGH_ADDRESS, ()⟩ 0b1000 () () 0x01 0x00 0xff 0xff 0x00 0x80
    rfl (by decide) rfl (by decide) (by decide) (by decide)
  simpa [toI16] using h

/-- Simulated channel for the not-ready path: the status register answers
`0b0111` (every low bit set except bit 3). -/
def busNotReady : I2CModel Unit Unit :=
  ⟨fun _ _ _ => .ok (),
   fun _ _ out _ =>
     if out = [registers.STATUS_REG] then .ok ([0b0111], ()) else .error ()⟩

/-- C6: when bit 3 of the status byte is clear, `read` returns `Ok(None)`
— a success, not an error — and its only bus transaction is the status
read: no burst read of the output registers is issued. -/
theorem read_not_ready_no_burst (M : I2CModel σ ε) (d : LIS3MDL σ)
    (st : Nat) (s1 : σ)
    (hst : M.write_read d.i2c d.address [registers.STATUS_REG] [0] = .ok ([st], s1))
    (hbit : st &&& 0b1000 = 0) :
    d.read M = .ok (none, ⟨d.address, s1⟩,
      [Trans.write_read d.address [registers.STATUS_REG] 1]) := by
  have hne : st &&& 0b1000 ≠ 0b1000 := by rw [hbit]; decide
  simp only [LIS3MDL.read, LIS3MDL.read_register, hst, List.headD_cons]
  simp [hne]

/-- C6 witness: at the simulated not-ready channel, `read` returns the
absent value after the single status transaction. -/
theorem read_not_ready_concrete :
    LIS3MDL.read busNotReady ⟨LIS3MDL_SA1_HIGH_ADDRESS, ()⟩ =
      .ok (none, ⟨LIS3MDL_SA1_HIGH_ADDRESS, ()⟩,
        [Trans.write_read LIS3MDL_SA1_HIGH_ADDRESS [registers.STATUS_REG] 1]) :=
  read_not_ready_no_burst busNotReady ⟨LIS3MDL_SA1_HIGH_ADDRESS, ()⟩
    0b0111 () rfl (by decide)

/-- Simulated channel where only the low candidate address answers the
identity byte; every other probe answers `0x00`; writes succeed. -/
def busLowOnly : I2CModel Unit Unit :=
  ⟨fun _ _ _ => .ok (),
   fun _ addr out _ =>
     if addr = LIS3MDL_SA1_LOW_ADDRESS ∧ out = [registers.WHO_AM_I] then
       .ok ([LIS3MDL_WHO_ID], ())
     else .ok ([0], ())⟩

/-- C3: discovery probes the high candidate address first and the low one
second; a probe succeeds exactly when the identity register answers
`0x3D`; the handle binds to the first matching address, and when neither
matches the result is the successful `Ok(None)` outcome. -/
theorem new_probes_high_then_low (M : I2CModel σ ε) (s : σ)
    (rh rl : Nat) (s1 s2 : σ)
    (hh : M.write_read s LIS3MDL_SA1_HIGH_ADDRESS [registers.WHO_AM_I]
      [LIS3MDL_WHO_ID + 1] = .ok ([rh], s1))
    (hl : M.write_read s1 LIS3MDL_SA1_LOW_ADDRESS [registers.WHO_AM_I]
      [LIS3MDL_WHO_ID + 1] = .ok ([rl], s2)) :
    LIS3MDL.new M s =
      if rh = LIS3MDL_WHO_ID then
        .ok (some ⟨LIS3MDL_SA1_HIGH_ADDRESS, s1⟩,
          [Trans.write_read LIS3MDL_SA1_HIGH_ADDRESS [registers.WHO_AM_I] 1])
      else if rl = LIS3MDL_WHO_ID then
        .ok (some ⟨LIS3MDL_SA1_LOW_ADDRESS, s2⟩,
          [Trans.write_read LIS3MDL_SA1_HIGH_ADDRESS [registers.WHO_AM_I] 1,
           Trans.write_read LIS3MDL_SA1_LOW_ADDRESS [registers.WHO_AM_I] 1])
      else
        .ok (none,
          [Trans.write_read LIS3MDL_SA1_HIGH_ADDRESS [registers.WHO_AM_I] 1,
           Trans.write_read LIS3MDL_SA1_LOW_ADDRESS [registers.WHO_AM_I] 1]) := by
  simp only [LIS3MDL.new, test_lism3mdl_addr, hh, List.headD_cons]
  by_cases h1 : rh = LIS3MDL_WHO_ID
  · have hb1 : (rh == LIS3MDL_WHO_ID) = true := beq_iff_eq.mpr h1
    simp [hb1, h1]
  · have hb1 : (rh == LIS3MDL_WHO_ID) = false := by simp [h1]
    by_cases h2 : rl = LIS3MDL_WHO_ID
    · have hb2 : (rl == LIS3MDL_WHO_ID) = true := beq_iff_eq.mpr h2
      simp [hb1, hb2, hl, h1, h2]
    · have hb2 : (rl == LIS3MDL_WHO_ID) = false := by simp [h2]
      simp [hb1, hb2, hl, h1, h2]

/-- C3 witness: a device answering correctly only at the low address is
found, after the high probe, and the handle binds to the low address. -/
theorem new_binds_low_concrete :
    LIS3MDL.new busLowOnly () =
      .ok (some ⟨LIS3MDL_SA1_LOW_ADDRESS, ()⟩,
        [Trans.write_read LIS3MDL_SA1_HIGH_ADDRESS [registers.WHO_AM_I] 1,
         Trans.write_read LIS3MDL_SA1_LOW_ADDRESS [registers.WHO_AM_I] 1]) := by
  have h := new_probes_high_then_low busLowOnly () 0 LIS3MDL_WHO_ID () ()
    rfl rfl
  simpa [LIS3MDL_WHO_ID] using h

/-- Simulated channel whose transactions all fail at the transport
level. -/
def busBroken : I2CModel Unit Unit :=
  ⟨fun _ _ _ => .error (), fun _ _ _ _ => .error ()⟩

/-- C4: a transport-level failure of an identity probe propagates out of
discovery as that same bus error, and is never reported as the
absent-device `Ok(None)` outcome.  The first disjunct needs no assumption
at all about the low address, so a failing high probe propagates without
the low address ever being probed. -/
theorem new_probe_error_propagates (M : I2CModel σ ε) (s : σ) (e : ε)
    (h : M.write_read s LIS3MDL_SA1_HIGH_ADDRESS [registers.WHO_AM_I]
        [LIS3MDL_WHO_ID + 1] = .error e ∨
      ∃ rh s1, M.write_read s LIS3MDL_SA1_HIGH_ADDRESS [registers.WHO_AM_I]
          [LIS3MDL_WHO_ID + 1] = .ok ([rh], s1) ∧ rh ≠ LIS3MDL_WHO_ID ∧
        M.write_read s1 LIS3MDL_SA1_LOW_ADDRESS [registers.WHO_AM_I]
          [LIS3MDL_WHO_ID + 1] = .error e) :
    LIS3MDL.new M s = .error e ∧ ∀ t, LIS3MDL.new M s ≠ .ok (none, t) := by
  have hmain : LIS3MDL.new M s = .error e := by
    rcases h with h | ⟨rh, s1, hh, hne, hl⟩
    · simp [LIS3MDL.new, test_lism3mdl_addr, h]
    · have hb : (rh == LIS3MDL_WHO_ID) = false := by simp [hne]
      simp [LIS3MDL.new, test_lism3mdl_addr, hh, hb, hl]
  exact ⟨hmain, fun t => by simp [hmain]⟩

/-- C4 witness: on a channel whose transactions always fail, discovery
fails with the bus error. -/
theorem new_probe_error_concrete :
    LIS3MDL.new busBroken () = .error () :=
  (new_probe_error_propagates busBroken () () (Or.inl rfl)).1

/-! ## Address stability -/

/-- Predicate: an operation step kept the resolved address and issued
every transaction to it. -/
def AddrStable (d : LIS3MDL σ) (d' : LIS3MDL σ) (t : List Trans) : Prop :=
  d'.address = d.address ∧ ∀ tr ∈ t, tr.addr = d.address

theorem set_register_addr_stable (M : I2CModel σ ε) (d : LIS3MDL σ)
    (reg v : Nat) (d' : LIS3MDL σ) (t : List Trans)
    (h : d.set_register M reg v = .ok (d', t)) : AddrStable d d' t := by
  revert h
  unfold LIS3MDL.set_register
  cases M.write d.i2c d.address [reg, v] with
  | error e => intro h; exact absurd h (by simp)
  | ok s =>
    intro h
    simp only [Except.ok.injEq, Prod.mk.injEq] at h
    obtain ⟨h1, h2⟩ := h
    subst h1; subst h2
    exact ⟨rfl, by simp [Trans.addr]⟩

theorem read_register_addr_stable (M : I2CModel σ ε) (d : LIS3MDL σ)
    (reg c : Nat) (d' : LIS3MDL σ) (t : List Trans)
    (h : d.read_register M reg = .ok (c, d', t)) : AddrStable d d' t := by
  revert h
  unfold LIS3MDL.read_register
  cases M.write_read d.i2c d.address [reg] [0] with
  | error e => intro h; exact absurd h (by simp)
  | ok p =>
    obtain ⟨resp, s⟩ := p
    intro h
    simp only [Except.ok.injEq, Prod.mk.injEq] at h
    obtain ⟨_, h1, h2⟩ := h
    subst h1; subst h2
    exact ⟨rfl, by simp [Trans.addr]⟩

theorem incremental_read_addr_stable (M : I2CModel σ ε) (d : LIS3MDL σ)
    (reg : Nat) (v : Int × Int × Int) (d' : LIS3MDL σ) (t : List Trans)
    (h : d.incremental_read_measurements M reg = .ok (v, d', t)) :
    AddrStable d d' t := by
  revert h
  unfold LIS3MDL.incremental_read_measurements
  cases M.write_read d.i2c d.address [reg] [0, 0, 0, 0, 0, 0] with
  | error e => intro h; exact absurd h (by simp)
  | ok p =>
    obtain ⟨values, s⟩ := p
    intro h
    simp only [Except.ok.injEq, Prod.mk.injEq] at h
    obtain ⟨_, h1, h2⟩ := h
    subst h1; subst h2
    exact ⟨rfl, by simp [Trans.addr]⟩

/-- Composing two stable steps is stable. -/
theorem AddrStable.comp {d d1 d2 : LIS3MDL σ} {t1 t2 : List Trans}
    (h1 : AddrStable d d1 t1) (h2 : AddrStable d1 d2 t2) :
    AddrStable d d2 (t1 ++ t2) := by
  obtain ⟨ha1, ht1⟩ := h1
  obtain ⟨ha2, ht2⟩ := h2
  refine ⟨ha2.trans ha1, fun tr htr => ?_⟩
  rcases List.mem_append.mp htr with hm | hm
  · exact ht1 tr hm
  · exact (ht2 tr hm).trans ha1

theorem set_xy_mode_addr_stable (M : I2CModel σ ε) (d : LIS3MDL σ)
    (m : AxisMode) (d' : LIS3MDL σ) (t : List Trans)
    (h : d.set_xy_mode M m = .ok (d', t)) : AddrStable d d' t := by
  revert h
  unfold LIS3MDL.set_xy_mode
  cases h1 : d.read_register M registers.CTRL_REG1 with
  | error e => intro h; exact absurd h (by simp)
  | ok p =>
    obtain ⟨c, d1, t1⟩ := p
    cases h2 : d1.set_register M registers.CTRL_REG1
        (c &&& (0b10011111 &&& (m.to_bitcode <<< 5))) with
    | error e => intro h; exact absurd h (by simp [h2])
    | ok q =>
      obtain ⟨d2, t2⟩ := q
      intro h
      obtain ⟨rfl, rfl⟩ : d2 = d' ∧ t1 ++ t2 = t := by simp_all
      exact (read_register_addr_stable M d _ _ _ _ h1).comp
        (set_register_addr_stable M d1 _ _ _ _ h2)

theorem set_data_rate_addr_stable (M : I2CModel σ ε) (d : LIS3MDL σ)
    (r : OutputDataRate) (d' : LIS3MDL σ) (t : List Trans)
    (h : d.set_data_rate M r = .ok (d', t)) : AddrStable d d' t := by
  revert h
  unfold LIS3MDL.set_data_rate
  cases h1 : d.read_register M registers.CTRL_REG1 with
  | error e => intro h; exact absurd h (by simp)
  | ok p =>
    obtain ⟨c, d1, t1⟩ := p
    cases h2 : d1.set_register M registers.CTRL_REG1
        (c &&& (0b11100001 &&& (r.to_bitcode <<< 1))) with
    | error e => intro h; exact absurd h (by simp [h2])
    | ok q =>
      obtain ⟨d2, t2⟩ := q
      intro h
      obtain ⟨rfl, rfl⟩ : d2 = d' ∧ t1 ++ t2 = t := by simp_all
      exact (read_register_addr_stable M d _ _ _ _ h1).comp
        (set_register_addr_stable M d1 _ _ _ _ h2)

theorem read_addr_stable (M : I2CModel σ ε) (d : LIS3MDL σ)
    (v : Option (Int × Int × Int)) (d' : LIS3MDL σ) (t : List Trans)
    (h : d.read M = .ok (v, d', t)) : AddrStable d d' t := by
  revert h
  unfold LIS3MDL.read
  cases h1 : d.read_register M registers.STATUS_REG with
  | error e => intro h; exact absurd h (by simp)
  | ok p =>
    obtain ⟨st, d1, t1⟩ := p
    by_cases hst : st &&& 0b1000 ≠ 0b1000
    · intro h
      obtain ⟨rfl, rfl⟩ : d1 = d' ∧ t1 = t := by simp_all
      exact read_register_addr_stable M d _ _ _ _ h1
    · cases h2 : d1.incremental_read_measurements M registers.OUT_X_L with
      | error e => intro h; exact absurd h (by simp [hst, h2])
      | ok q =>
        obtain ⟨w, d2, t2⟩ := q
        intro h
        obtain ⟨rfl, rfl⟩ : d2 = d' ∧ t1 ++ t2 = t := by simp_all
        exact (read_register_addr_stable M d _ _ _ _ h1).comp
          (incremental_read_addr_stable M d1 _ _ _ _ h2)

theorem init_default_addr_stable (M : I2CModel σ ε) (d : LIS3MDL σ)
    (d' : LIS3MDL σ) (t : List Trans)
    (h : d.init_default M = .ok (d', t)) : AddrStable d d' t := by
  revert h
  unfold LIS3MDL.init_default
  cases h1 : d.set_xy_mode_and_data_rate M AxisMode.HighPerformance
      OutputDataRate.Hz10 with
  | error e => intro h; exact absurd h (by simp)
  | ok p =>
    obtain ⟨d1, t1⟩ := p
    cases h2 : d1.set_z_mode M AxisMode.HighPerformance with
    | error e => intro h; exact absurd h (by simp [h2])
    | ok q =>
      obtain ⟨d2, t2⟩ := q
      cases h3 : d2.set_operating_mode M OperatingMode.ContinuousConversion with
      | error e => intro h; exact absurd h (by simp [h2, h3])
      | ok w =>
        obtain ⟨d3, t3⟩ := w
        intro h
        obtain ⟨rfl, rfl⟩ : d3 = d' ∧ t1 ++ t2 ++ t3 = t := by simp_all
        exact ((set_register_addr_stable M d _ _ _ _ h1).comp
          (set_register_addr_stable M d1 _ _ _ _ h2)).comp
          (set_register_addr_stable M d2 _ _ _ _ h3)

/-- Every single public driver operation keeps the resolved address and
issues its transactions to it. -/
theorem stepOp_addr_stable (M : I2CModel σ ε) (op : DriverOp)
    (d d' : LIS3MDL σ) (t : List Trans)
    (h : stepOp M op d = .ok (d', t)) : AddrStable d d' t := by
  cases op with
  | init_default => exact init_default_addr_stable M d d' t h
  | set_operating_mode m => exact set_register_addr_stable M d _ _ d' t h
  | power_down => exact set_register_addr_stable M d _ _ d' t h
  | set_full_scale f => exact set_register_addr_stable M d _ _ d' t h
  | set_xy_mode_and_data_rate m r => exact set_register_addr_stable M d _ _ d' t h
  | set_xy_mode m => exact set_xy_mode_addr_stable M d m d' t h
  | set_z_mode m => exact set_register_addr_stable M d _ _ d' t h
  | set_data_rate r => exact set_data_rate_addr_stable M d r d' t h
  | set_register reg v => exact set_register_addr_stable M d reg v d' t h
  | read_register reg =>
    revert h
    simp only [stepOp, Except.map]
    cases h1 : d.read_register M reg with
    | error e => intro h; exact absurd h (by simp)
    | ok p =>
      obtain ⟨c, d1, t1⟩ := p
      intro h
      obtain ⟨rfl, rfl⟩ : d1 = d' ∧ t1 = t := by simp_all
      exact read_register_addr_stable M d _ _ _ _ h1
  | read =>
    revert h
    simp only [stepOp, Except.map]
    cases h1 : d.read M with
    | error e => intro h; exact absurd h (by simp)
    | ok p =>
      obtain ⟨v, d1, t1⟩ := p
      intro h
      obtain ⟨rfl, rfl⟩ : d1 = d' ∧ t1 = t := by simp_all
      exact read_addr_stable M d _ _ _ h1

/-- A whole successful sequence of driver operations keeps the resolved
address and issues every transaction to it. -/
theorem runOps_addr_stable (M : I2CModel σ ε) (ops : List DriverOp)
    (d d' : LIS3MDL σ) (t : List Trans)
    (h : runOps M ops d = .ok (d', t)) : AddrStable d d' t := by
  induction ops generalizing d t with
  | nil =>
    obtain ⟨rfl, rfl⟩ : d = d' ∧ ([] : List Trans) = t := by
      simpa [runOps] using h
    exact ⟨rfl, by simp⟩
  | cons op ops ih =>
    revert h
    unfold runOps
    cases h1 : stepOp M op d with
    | error e => intro h; exact absurd h (by simp)
    | ok p =>
      obtain ⟨d1, t1⟩ := p
      cases h2 : runOps M ops d1 with
      | error e => intro h; exact absurd h (by simp [h2])
      | ok q =>
        obtain ⟨d2, t2⟩ := q
        intro h
        obtain ⟨rfl, rfl⟩ : d2 = d' ∧ t1 ++ t2 = t := by simp_all
        exact (stepOp_addr_stable M op d _ _ h1).comp (ih d1 t2 h2)

/-- C8: for a handle produced by discovery, any successful sequence of
driver operations leaves the resolved address unchanged and issues every
bus transaction to that discovery-time address. -/
theorem handle_address_never_changes (M : I2CModel σ ε) (s : σ)
    (d0 : LIS3MDL σ) (t0 : List Trans)
    (_hnew : LIS3MDL.new M s = .ok (some d0, t0))
    (ops : List DriverOp) (d' : LIS3MDL σ) (t' : List Trans)
    (hrun : runOps M ops d0 = .ok (d', t')) :
    d'.address = d0.address ∧ ∀ tr ∈ t', tr.addr = d0.address :=
  runOps_addr_stable M ops d0 d' t' hrun

/-- C8 witness: the handle discovered on the low-address-only channel,
driven through a configuration, a register read and a measurement poll,
keeps address `0b0011100` and issues every transaction to it. -/
theorem handle_address_never_changes_concrete :
    (⟨LIS3MDL_SA1_LOW_ADDRESS, ()⟩ : LIS3MDL Unit).address =
      (⟨LIS3MDL_SA1_LOW_ADDRESS, ()⟩ : LIS3MDL Unit).address ∧
    ∀ tr ∈ [Trans.write LIS3MDL_SA1_LOW_ADDRESS [registers.CTRL_REG3, 2]],
      tr.addr = (⟨LIS3MDL_SA1_LOW_ADDRESS, ()⟩ : LIS3MDL Unit).address :=
  handle_address_never_changes busLowOnly () ⟨LIS3MDL_SA1_LOW_ADDRESS, ()⟩
    [Trans.write_read LIS3MDL_SA1_HIGH_ADDRESS [registers.WHO_AM_I] 1,
     Trans.write_read LIS3MDL_SA1_LOW_ADDRESS [registers.WHO_AM_I] 1]
    rfl [DriverOp.power_down] ⟨LIS3MDL_SA1_LOW_ADDRESS, ()⟩
    [Trans.write LIS3MDL_SA1_LOW_ADDRESS [registers.CTRL_REG3, 2]] rfl

end LIS3MDLModel
